import Mathlib

/-
Verification development for src/server/op_generic.c (Netopeer2 server,
generic NETCONF RPC/action operation).

The data tree (libyang `struct lyd_node`) is embedded as an arena: a list of
nodes carrying their schema data, a parent index, a first-child index and the
`dflt` flag.  Arena indices follow document order (depth-first), so the
document-order traversals of the C code correspond to index order here.
External library calls (libyang lyd_new_path/lyd_validate, sysrepo
sr_rpc_send/sr_action_send, nc_server replies) are modelled as oracles or
enumerated outcomes at their interface boundary; everything implemented in
op_generic.c itself is translated directly.
-/

namespace NP2

/-- Nodetype bit values of libyang `LYS_NODETYPE` used by op_generic.c. -/
abbrev Nodetype := Nat

def LYS_CONTAINER : Nodetype := 0x0001

def LYS_LEAF : Nodetype := 0x0004

def LYS_LEAFLIST : Nodetype := 0x0008

def LYS_LIST : Nodetype := 0x0010

def LYS_ANYXML : Nodetype := 0x0020

def LYS_ANYDATA : Nodetype := 0x0060

def LYS_RPC : Nodetype := 0x0100

def LYS_ACTION : Nodetype := 0x4000

/-- Schema node data read by op_generic.c: the nodetype, the presence flag of
a `struct lys_node_container` (a non-null `presence` string in C) and the
`keys_size` of a `struct lys_node_list`. -/
structure LysNode where
  nodetype : Nodetype
  presence : Bool
  keys_size : Nat
deriving DecidableEq, Repr

/-- Data node (libyang `struct lyd_node`): schema reference, parent link,
first-child link (both arena indices) and the `dflt` flag. -/
structure LydNode where
  schema : LysNode
  parent : Option Nat
  child : Option Nat
  dflt : Bool
deriving DecidableEq, Repr

/-- Arena-indexed data tree in document order. -/
abbrev DataTree := List LydNode

/-- Read `node->dflt`; false for an index outside the arena. -/
def dfltAt (t : DataTree) (i : Nat) : Bool :=
  match t[i]? with
  | some nd => nd.dflt
  | none => false

/-- Read `node->schema`. -/
def schemaAt (t : DataTree) (i : Nat) : Option LysNode :=
  (t[i]?).map (fun nd => nd.schema)

/-- Read `node->parent`. -/
def parentIdx (t : DataTree) (i : Nat) : Option Nat :=
  match t[i]? with
  | some nd => nd.parent
  | none => none

/-- Read `node->child`. -/
def childIdx (t : DataTree) (i : Nat) : Option Nat :=
  match t[i]? with
  | some nd => nd.child
  | none => none

/-- Write `node->dflt = b`; no-op for an index outside the arena. -/
def setDflt (t : DataTree) (i : Nat) (b : Bool) : DataTree :=
  match t[i]? with
  | some nd => t.set i { nd with dflt := b }
  | none => t

/-- Lines 51-53: `for (iter = node; !(iter->schema->nodetype & (LYS_LEAF |
LYS_LEAFLIST | LYS_ANYXML)) && iter->child; iter = iter->child);` — descend
to the deepest relevant descendant.  Fuel bounds the walk; `t.length` is
enough on any acyclic tree, which the C code assumes. -/
def goDown (t : DataTree) : Nat → Nat → Nat
  | iter, 0 => iter
  | iter, fuel + 1 =>
    match t[iter]? with
    | none => iter
    | some nd =>
      if nd.schema.nodetype &&& (LYS_LEAF ||| LYS_LEAFLIST ||| LYS_ANYXML) = 0 then
        match nd.child with
        | some c => goDown t c fuel
        | none => iter
      else iter

/-- Lines 56-62: the two `break` conditions of the upward walk — a presence
container or a list with keys. -/
def isBoundarySchema (s : LysNode) : Bool :=
  (s.nodetype = LYS_CONTAINER && s.presence) || (s.nodetype = LYS_LIST && s.keys_size ≠ 0)

/-- Lines 55-68: walk upward from `iter` back to `node`, setting `dflt = 1`
on each visited node, stopping (without setting the flag) at a presence
container or keyed list.  The C loop ends by pointer equality `iter == node`;
a missing parent ends the walk here where the C code could not reach that
state on a well-formed tree. -/
def goUp (node : Nat) : DataTree → Nat → Nat → DataTree
  | t, _, 0 => t
  | t, iter, fuel + 1 =>
    match t[iter]? with
    | none => t
    | some nd =>
      if isBoundarySchema nd.schema then t
      else
        let t1 := setDflt t iter true
        if iter = node then t1
        else
          match nd.parent with
          | some p => goUp node t1 p fuel
          | none => t1

/-- Lines 70-72: `for (iter = node->parent; iter && iter->dflt;
iter = iter->parent) iter->dflt = 0;` — clear `dflt` upward while set. -/
def clearUp : DataTree → Option Nat → Nat → DataTree
  | t, _, 0 => t
  | t, none, _ + 1 => t
  | t, some i, fuel + 1 =>
    match t[i]? with
    | none => t
    | some nd => if nd.dflt then clearUp (setDflt t i false) nd.parent fuel else t

/-- Lines 49-73: the default-flag propagation performed for a freshly
inserted/changed node (`output[i].dflt` decides the direction).  This is the
DefaultPropagator of the spec. -/
def propagate (t : DataTree) (node : Nat) (wasDflt : Bool) : DataTree :=
  if wasDflt then
    goUp node t (goDown t node t.length) t.length
  else
    match t[node]? with
    | some nd => clearUp t nd.parent (t.length + 1)
    | none => t

/-! Sysrepo flat values and the request flattening of op_generic (lines
128-152). -/

/-- Sysrepo value types (`sr_type_t`) distinguished by op_generic.c. -/
inductive SrType
  | SR_UNKNOWN_T
  | SR_STRING_T
  | SR_CONTAINER_T
  | SR_ANYXML_T
  | SR_ANYDATA_T
deriving DecidableEq, Repr

/-- Flat record (`sr_val_t`) as used here: the path, the value type, the
value payload and the default flag.  `xpath = none` models the all-zero state
left by `calloc`. -/
structure SrValT where
  xpath : Option String
  type : SrType
  value : Option String
  dflt : Bool
deriving DecidableEq, Repr

/-- All-zero `sr_val_t` as produced by `calloc` (line 132). -/
def zeroSrVal : SrValT := ⟨none, .SR_UNKNOWN_T, none, false⟩

/-- One node of `lyd_find_path(rpc, ".//*")` (line 129), in document order,
with the oracle outcomes of the repository helpers applied to it:
whether `op_set_srval` succeeds and whether it hands back an auxiliary
string buffer. -/
structure InNode where
  path : String
  vtype : SrType
  value : String
  dflt : Bool
  srvalOk : Bool
  strAux : Bool
deriving DecidableEq, Repr

/-- Modelled from the spec: `op_set_srval` (repository code outside src/) is
the ValueCodec direction tree-node → flat record; it fills the record with
the node's path (`lyd_path`, line 144) and typed value. -/
def op_set_srval (nd : InNode) : SrValT :=
  ⟨some nd.path, nd.vtype, some nd.value, false⟩

/-- State of the flattening loop: the running `in_count`, the `input` array,
the set of indices whose `input[i].xpath` buffer is allocated, and the number
of auxiliary chunks stored in `strs`. -/
structure FlatState where
  in_count : Nat
  input : List SrValT
  xpaths : List Nat
  strs : Nat
deriving DecidableEq, Repr

/-- Lines 138-151: for each found node in document order, skip it and
decrement `in_count` if its `dflt` flag is set, otherwise convert it into
`input[i]` — at the ORIGINAL index `i`.  A failing `op_set_srval` jumps to
the error label with the partial state. -/
def flattenGo : List InNode → Nat → FlatState → Except FlatState FlatState
  | [], _, st => .ok st
  | nd :: rest, i, st =>
    if nd.dflt then
      flattenGo rest (i + 1) { st with in_count := st.in_count - 1 }
    else if nd.srvalOk then
      flattenGo rest (i + 1)
        { st with
          input := st.input.set i (op_set_srval nd)
          xpaths := st.xpaths ++ [i]
          strs := st.strs + (if nd.strAux then 1 else 0) }
    else .error st

/-- Lines 129-152: initial state (`in_count = set->number`, `input`
zero-initialised by `calloc`) and the conversion loop. -/
def flattenInput (nodes : List InNode) : Except FlatState FlatState :=
  flattenGo nodes 0 ⟨nodes.length, List.replicate nodes.length zeroSrVal, [], 0⟩

/-- The flat request sequence actually handed to the backend: lines 159/161
pass the pointer `input` together with `in_count`, so the backend reads the
first `in_count` array slots. -/
def sentRecords (nodes : List InNode) : List SrValT :=
  match flattenInput nodes with
  | .ok st => st.input.take st.in_count
  | .error _ => []

/-! Reply assembly: build_rpc_act_from_output (lines 31-81). -/

/-- Result of a `lyd_new_path` call (external libyang): the updated tree, the
created/changed node (NULL = `none` when an update changed nothing) and
whether `ly_errno` is set afterwards. -/
structure InsertOutcome where
  tree : DataTree
  node : Option Nat
  err : Bool

/-- Oracle for `lyd_new_path(rpc_act, ctx, xpath, value, options, UPDATE |
OUTPUT)`: arguments are the current tree, the anchor index of `rpc_act`, the
record's path, the value string and whether `LYD_ANYDATA_SXML` was passed. -/
abbrev InsertOracle := DataTree → Nat → Option String → Option String → Bool → InsertOutcome

/-- Modelled from the spec: `op_get_srval` (repository code outside src/) is
the ValueCodec direction flat record → value string for `lyd_new_path`. -/
def op_get_srval (v : SrValT) : Option String := v.value

/-- Line 41: `(output->type == SR_ANYXML_T || output->type == SR_ANYDATA_T) ?
LYD_ANYDATA_SXML : 0`.  Note `output->type` reads `output[0].type`, the FIRST
record of the reply array, whatever the current loop index is. -/
def sxmlArg (output : List SrValT) : Bool :=
  match output[0]? with
  | some v => v.type = .SR_ANYXML_T || v.type = .SR_ANYDATA_T
  | none => false

/-- The per-record decision the spec describes: whether THIS record's own
type is an anydata/anyxml payload.  Stated for comparison with `sxmlArg`. -/
def sxmlArgOwn (v : SrValT) : Bool :=
  v.type = .SR_ANYXML_T || v.type = .SR_ANYDATA_T

/-- Lines 38-74, one iteration: reset `ly_errno`, call `lyd_new_path`, fail
if `ly_errno` is set, and when a node was created/changed run the
default-flag propagation with the record's `dflt` flag. -/
def buildStep (ins : InsertOracle) (anchor : Nat) (sxml : Bool) (t : DataTree)
    (r : SrValT) : Option DataTree :=
  let res := ins t anchor r.xpath (op_get_srval r) sxml
  if res.err then none
  else
    match res.node with
    | none => some res.tree
    | some n => some (propagate res.tree n r.dflt)

/-- Lines 38-75: the record loop of build_rpc_act_from_output. -/
def buildRecords (ins : InsertOracle) (anchor : Nat) (sxml : Bool) :
    DataTree → List SrValT → Option DataTree
  | t, [] => some t
  | t, r :: rest =>
    match buildStep ins anchor sxml t r with
    | none => none
    | some t1 => buildRecords ins anchor sxml t1 rest

/-- Lines 31-81: build_rpc_act_from_output — insert every reply record (the
`LYD_ANYDATA_SXML` decision is made from `output[0]`, see `sxmlArg`), then
run `lyd_validate(&rpc_act, LYD_OPT_RPCREPLY, NULL)` (line 76); the validate
call is an external oracle.  Returns `none` for the C result -1. -/
def build_rpc_act_from_output (ins : InsertOracle) (validate : DataTree → Bool)
    (t : DataTree) (anchor : Nat) (output : List SrValT) : Option DataTree :=
  match buildRecords ins anchor (sxmlArg output) t output with
  | none => none
  | some t1 => if validate t1 then some t1 else none

/-! The op_generic coordinator (lines 83-230). -/

/-- Sysrepo status codes distinguished by op_generic (lines 179-184). -/
inductive SrStatus
  | SR_ERR_OK
  | SR_ERR_UNKNOWN_MODEL
  | SR_ERR_NOT_FOUND
  | SR_ERR_INTERNAL
  | SR_ERR_OPERATION_FAILED
deriving DecidableEq, Repr

/-- Caller-visible outcome of op_generic.
  * `errOpNotSupported` — line 180: `nc_server_reply_err(nc_err(
    NC_ERR_OP_NOT_SUPPORTED, NC_ERR_TYPE_PROT))`; carries no data tree and no
    message detail.
  * `errSr` — line 210: `op_build_err_sr(NULL, sessions->srs)`.  Modelled
    from the spec: op_build_err_sr (repository code outside src/) is the
    backend-error outcome, carrying the backend's status and message.
  * `errOpFailed` — lines 213-214: `nc_err(NC_ERR_OP_FAILED,
    NC_ERR_TYPE_APP)` with the last recorded diagnostic message.
  * `data` — line 203: `nc_server_reply_data(reply_data, nc_wd,
    NC_PARAMTYPE_FREE)`, ownership of the tree transferred to the caller.
  * `ok` — line 206: `nc_server_reply_ok()`, bare acknowledgement. -/
inductive Reply
  | errOpNotSupported
  | errSr
  | errOpFailed
  | data (tree : DataTree)
  | ok
deriving DecidableEq, Repr

/-- Environment of one op_generic call: the caller's tree, and the outcomes
of every external call, supplied as oracles. -/
structure OpEnv where
  callerTree : DataTree
  dsRunning : Bool
  dupOk : Bool
  inputNodes : List InNode
  allocOk : Bool
  backendRc : SrStatus
  backendOutput : List SrValT
  ins : InsertOracle
  validateOk : DataTree → Bool

/-- Mutable state of the call: the caller's tree, the duplicated action tree
(slot written by the mutating tree operations in the action case) and the
liveness ledger of every resource op_generic allocates.  A `…Alive = true`
field at return is memory the call allocated and neither freed nor handed to
the caller. -/
structure OpSt where
  caller : DataTree
  act : Option DataTree
  actAlive : Bool
  setAlive : Bool
  inputAlive : Bool
  strsAlive : Bool
  xpathsAlive : List Nat
  outputAlive : Bool
  replyDupAlive : Bool
deriving Repr

/-- Result of the call: the reply handed to the transport plus the final
state/ledger. -/
structure OpResult where
  reply : Reply
  st : OpSt
deriving Repr

/-- Lines 212-229, the `error:` label: build the operation-failed reply, free
`set`, the `strs` chunks and set, `input[i].xpath` for `i < in_count` (the
CURRENT `in_count`), the `input` array and the `output` values.  The
duplicated action tree `act` is not freed here. -/
def errorExit (st : OpSt) (inCount : Nat) : OpResult :=
  { reply := .errOpFailed
    st := { st with
            setAlive := false
            strsAlive := false
            inputAlive := false
            xpathsAlive := st.xpathsAlive.filter (fun i => decide (inCount ≤ i))
            outputAlive := false } }

/-- Lines 108-126 helper: `LY_TREE_DFS` search for the first node of schema
nodetype `LYS_ACTION` inside the duplicated tree (arena indices are document
order, so the first index is the DFS-first node). -/
def findActionIdx (t : DataTree) : Option Nat :=
  t.findIdx? (fun nd => nd.schema.nodetype = LYS_ACTION)

/-- Line 188: `lyd_dup(rpc, 0)` — duplicate the single node without its
children, to serve as the reply root of an operation. -/
def lyd_dup_shallow (t : DataTree) (i : Nat) : DataTree :=
  match t[i]? with
  | some nd => [{ nd with parent := none, child := none }]
  | none => []

/-- Line 191: `lyd_free_withsiblings(rpc->child)` — discard the action
node's children (the freed descendants simply become unreachable from the
node in this arena model). -/
def discardChildren (t : DataTree) (i : Nat) : DataTree :=
  match t[i]? with
  | some nd => t.set i { nd with child := none }
  | none => t

/-- Read `rpc->schema->nodetype` of the root (line 108). -/
def rootNodetype (t : DataTree) : Nodetype :=
  match t[0]? with
  | some nd => nd.schema.nodetype
  | none => 0

/-- Lines 179-207 plus the `srerror:` label: everything after the backend
round-trip.  `st.act` plays the role of the C variable `act`: `none` means
the call is a plain operation (`!act`), `some` an action whose working
pointer `rpc` sits at `rpcIdx` inside it. -/
def afterSend (env : OpEnv) (st : OpSt) (rpcIdx : Nat) : OpResult :=
  let rc := env.backendRc
  let output := if rc = .SR_ERR_OK then env.backendOutput else []
  if rc = .SR_ERR_UNKNOWN_MODEL ∨ rc = .SR_ERR_NOT_FOUND then
    { reply := .errOpNotSupported, st := st }
  else if rc ≠ .SR_ERR_OK then
    { reply := .errSr, st := st }
  else if output = [] then
    { reply := .ok, st := { st with act := none, actAlive := false } }
  else
    match st.act with
    | none =>
      let rd := lyd_dup_shallow st.caller 0
      match build_rpc_act_from_output env.ins env.validateOk rd 0 output with
      | some t1 =>
        { reply := .data t1, st := { st with outputAlive := false, replyDupAlive := false } }
      | none =>
        { reply := .errSr, st := { st with outputAlive := false, replyDupAlive := false } }
    | some actT =>
      let actT1 := discardChildren actT rpcIdx
      match build_rpc_act_from_output env.ins env.validateOk actT1 rpcIdx output with
      | some t1 =>
        { reply := .data t1
          st := { st with act := some t1, actAlive := false, outputAlive := false } }
      | none =>
        { reply := .errSr, st := { st with act := none, actAlive := false, outputAlive := false } }

/-- Lines 128-177: collect the input nodes (`set`), convert them into the
flat `input` array, free the conversion buffers, and issue the backend call
(the call result itself is handled by `afterSend`).  `rpcIdx` is the index
the C variable `rpc` points at inside the action tree. -/
def flattenStage (env : OpEnv) (st : OpSt) (rpcIdx : Nat) : OpResult :=
  let st := { st with setAlive := true }
  let n := env.inputNodes.length
  if n ≠ 0 ∧ env.allocOk = false then
    errorExit st n
  else
    let alive := n ≠ 0
    let st := { st with inputAlive := alive, strsAlive := alive }
    match flattenGo env.inputNodes 0 ⟨n, List.replicate n zeroSrVal, [], 0⟩ with
    | .error fs => errorExit { st with xpathsAlive := fs.xpaths } fs.in_count
    | .ok fs =>
      let st := { st with
                  setAlive := false
                  strsAlive := false
                  xpathsAlive := fs.xpaths.filter (fun i => decide (fs.in_count ≤ i))
                  inputAlive := false
                  outputAlive := decide (env.backendRc = .SR_ERR_OK ∧ env.backendOutput ≠ []) }
      afterSend env st rpcIdx

/-- Lines 83-230: op_generic.  Switch the session datastore to running
(shared session state, not tracked further), detect operation vs action —
for an action, duplicate the whole tree and DFS-search the duplicate for the
action node — then flatten, invoke and assemble. -/
def op_generic (env : OpEnv) : OpResult :=
  let st0 : OpSt :=
    { caller := env.callerTree, act := none, actAlive := false, setAlive := false
      inputAlive := false, strsAlive := false, xpathsAlive := [], outputAlive := false
      replyDupAlive := false }
  if rootNodetype env.callerTree ≠ LYS_RPC then
    if env.dupOk = false then
      errorExit st0 0
    else
      let st1 := { st0 with act := some env.callerTree, actAlive := true }
      match findActionIdx env.callerTree with
      | none => errorExit st1 0
      | some j => flattenStage env st1 j
  else
    flattenStage env st0 0

/-! Auxiliary definitions used by the statements and proofs. -/

/-- Ancestor chain: `isChainFrom t o l` holds when `l` lists exactly the
nodes reached from `o` by repeatedly following `parent` links, ending at a
node without a stored parent. -/
def isChainFrom (t : DataTree) : Option Nat → List Nat → Bool
  | none, l => l.isEmpty
  | some _, [] => false
  | some i, j :: l => i = j && isChainFrom t (parentIdx t i) l

/-- Index sequence visited by `goUp`.  The upward walk's control flow reads
only schema and parent links, never the flags it writes, so the visit list
is a function of the tree shape alone. -/
def upVisits (node : Nat) : DataTree → Nat → Nat → List Nat
  | _, _, 0 => []
  | t, iter, fuel + 1 =>
    match t[iter]? with
    | none => []
    | some nd =>
      if isBoundarySchema nd.schema then []
      else if iter = node then [iter]
      else
        match nd.parent with
        | some p => iter :: upVisits node t p fuel
        | none => [iter]

/-- Set the `dflt` flag on every index of `l`, in order. -/
def setTrueAll (t : DataTree) (l : List Nat) : DataTree :=
  l.foldl (fun a i => setDflt a i true) t

/-! Concrete inputs used by witnesses and counterexamples. -/

/-- Insertion oracle whose `lyd_new_path` updates change nothing: no node
returned, no error. -/
def insNoop : InsertOracle := fun t _ _ _ _ => ⟨t, none, false⟩

/-- Two input nodes in document order: a defaulted leaf `x` followed by a
non-default leaf `y` (the scenario of spec §8.7). -/
def exInNodes : List InNode :=
  [⟨"/m:op/x", .SR_STRING_T, "0", true, true, false⟩,
   ⟨"/m:op/y", .SR_STRING_T, "5", false, true, false⟩]

/-- Two reply records: the first an anyxml payload, the second a plain
string leaf. -/
def exOutAny : List SrValT :=
  [⟨some "/m:op/a", .SR_ANYXML_T, some "<x/>", false⟩,
   ⟨some "/m:op/b", .SR_STRING_T, some "5", false⟩]

/-- A single reply record for the assembly scenarios. -/
def exOutRec : SrValT := ⟨some "/m:op/res", .SR_STRING_T, some "1", false⟩

/-- Caller tree of a plain operation: one rpc-kind root node. -/
def opRootTree : DataTree := [⟨⟨LYS_RPC, false, 0⟩, none, none, false⟩]

/-- Caller tree of an action: a plain container holding an action node. -/
def actDataTree : DataTree :=
  [⟨⟨LYS_CONTAINER, false, 0⟩, none, some 1, false⟩,
   ⟨⟨LYS_ACTION, false, 0⟩, some 0, none, false⟩]

/-- Chain tree: two nested plain containers marked default above a
non-default leaf. -/
def chainTree : DataTree :=
  [⟨⟨LYS_CONTAINER, false, 0⟩, none, some 1, true⟩,
   ⟨⟨LYS_CONTAINER, false, 0⟩, some 0, some 2, true⟩,
   ⟨⟨LYS_LEAF, false, 0⟩, some 1, none, false⟩]

/-- A single presence container whose `dflt` flag is already set. -/
def presenceTree : DataTree := [⟨⟨LYS_CONTAINER, true, 0⟩, none, none, true⟩]

/-- Operation call whose backend reply assembles but fails validation. -/
def envValFail : OpEnv :=
  { callerTree := opRootTree, dsRunning := true, dupOk := true, inputNodes := []
    allocOk := true, backendRc := .SR_ERR_OK
    backendOutput := [exOutRec]
    ins := insNoop, validateOk := fun _ => false }

/-- Operation call whose backend reports an unknown model. -/
def envNotSup : OpEnv :=
  { callerTree := opRootTree, dsRunning := true, dupOk := true, inputNodes := []
    allocOk := true, backendRc := .SR_ERR_UNKNOWN_MODEL, backendOutput := []
    ins := insNoop, validateOk := fun _ => true }

/-- Action call whose backend reports an internal failure. -/
def envActBackendFail : OpEnv :=
  { callerTree := actDataTree, dsRunning := true, dupOk := true, inputNodes := []
    allocOk := true, backendRc := .SR_ERR_INTERNAL, backendOutput := []
    ins := insNoop, validateOk := fun _ => true }

/-! Helper lemmas: reading the arena after a flag write. -/

theorem setDflt_of_none {t : DataTree} {i : Nat} (h : t[i]? = none) (b : Bool) :
    setDflt t i b = t := by
  simp [setDflt, h]

theorem getElem?_setDflt_ne {t : DataTree} {i j : Nat} (b : Bool) (h : j ≠ i) :
    (setDflt t i b)[j]? = t[j]? := by
  unfold setDflt
  cases hi : t[i]? with
  | none => rfl
  | some nd => exact List.getElem?_set_ne (Ne.symm h)

theorem getElem?_setDflt_self {t : DataTree} {i : Nat} {nd : LydNode}
    (h : t[i]? = some nd) (b : Bool) :
    (setDflt t i b)[i]? = some { nd with dflt := b } := by
  unfold setDflt
  rw [h, List.getElem?_set_self', h]
  rfl

theorem length_setDflt (t : DataTree) (i : Nat) (b : Bool) :
    (setDflt t i b).length = t.length := by
  unfold setDflt
  cases t[i]? with
  | none => rfl
  | some nd => exact List.length_set t _ _

theorem dfltAt_setDflt_ne {t : DataTree} {i j : Nat} (b : Bool) (h : j ≠ i) :
    dfltAt (setDflt t i b) j = dfltAt t j := by
  simp [dfltAt, getElem?_setDflt_ne b h]

theorem dfltAt_setDflt_self {t : DataTree} {i : Nat} {nd : LydNode}
    (h : t[i]? = some nd) (b : Bool) : dfltAt (setDflt t i b) i = b := by
  simp [dfltAt, getElem?_setDflt_self h b]

theorem schemaAt_setDflt (t : DataTree) (i j : Nat) (b : Bool) :
    schemaAt (setDflt t i b) j = schemaAt t j := by
  by_cases hji : j = i
  · subst hji
    cases hi : t[j]? with
    | none => rw [setDflt_of_none hi]
    | some nd => simp [schemaAt, getElem?_setDflt_self hi b, hi]
  · simp [schemaAt, getElem?_setDflt_ne b hji]

theorem parentIdx_setDflt (t : DataTree) (i j : Nat) (b : Bool) :
    parentIdx (setDflt t i b) j = parentIdx t j := by
  by_cases hji : j = i
  · subst hji
    cases hi : t[j]? with
    | none => rw [setDflt_of_none hi]
    | some nd => simp [parentIdx, getElem?_setDflt_self hi b, hi]
  · simp [parentIdx, getElem?_setDflt_ne b hji]

theorem childIdx_setDflt (t : DataTree) (i j : Nat) (b : Bool) :
    childIdx (setDflt t i b) j = childIdx t j := by
  by_cases hji : j = i
  · subst hji
    cases hi : t[j]? with
    | none => rw [setDflt_of_none hi]
    | some nd => simp [childIdx, getElem?_setDflt_self hi b, hi]
  · simp [childIdx, getElem?_setDflt_ne b hji]

theorem isSome_setDflt (t : DataTree) (i j : Nat) (b : Bool) :
    (setDflt t i b)[j]?.isSome = t[j]?.isSome := by
  by_cases hji : j = i
  · subst hji
    cases hi : t[j]? with
    | none => rw [setDflt_of_none hi, hi]
    | some nd => simp [getElem?_setDflt_self hi b, hi]
  · rw [getElem?_setDflt_ne b hji]

theorem dfltAt_eq_true_iff {t : DataTree} {i : Nat} :
    dfltAt t i = true ↔ ∃ nd, t[i]? = some nd ∧ nd.dflt = true := by
  unfold dfltAt
  cases t[i]? <;> simp

theorem list_set_self {α : Type _} (l : List α) :
    ∀ (i : Nat) (x : α), l[i]? = some x → l.set i x = l := by
  induction l with
  | nil => intro i x h; simp at h
  | cons a l ih =>
    intro i x h
    cases i with
    | zero => simp at h; simp [List.set, h]
    | succ n => simp at h; simp [List.set, ih n x h]

theorem setDflt_of_true {t : DataTree} {i : Nat} (h : dfltAt t i = true) :
    setDflt t i true = t := by
  obtain ⟨nd, hnd, hd⟩ := dfltAt_eq_true_iff.mp h
  have heq : { nd with dflt := true } = nd := by cases nd; simp_all
  simp [setDflt, hnd, heq, list_set_self t i nd hnd]

/-! The walks' control flow depends only on the tree shape. -/

theorem goDown_setDflt (t : DataTree) (j : Nat) (b : Bool) :
    ∀ (fuel iter : Nat), goDown (setDflt t j b) iter fuel = goDown t iter fuel := by
  intro fuel
  induction fuel with
  | zero => intro iter; rfl
  | succ n ih =>
    intro iter
    rw [goDown, goDown]
    by_cases hij : iter = j
    · subst hij
      cases hi : t[iter]? with
      | none => rw [setDflt_of_none hi, hi]
      | some nd => simp only [getElem?_setDflt_self hi b, hi]; simp [ih]
    · rw [getElem?_setDflt_ne b hij]
      cases hti : t[iter]? with
      | none => rfl
      | some nd => simp [ih]

theorem upVisits_setDflt (node : Nat) (t : DataTree) (j : Nat) (b : Bool) :
    ∀ (fuel iter : Nat), upVisits node (setDflt t j b) iter fuel = upVisits node t iter fuel := by
  intro fuel
  induction fuel with
  | zero => intro iter; rfl
  | succ n ih =>
    intro iter
    rw [upVisits, upVisits]
    by_cases hij : iter = j
    · subst hij
      cases hi : t[iter]? with
      | none => rw [setDflt_of_none hi, hi]
      | some nd => simp only [getElem?_setDflt_self hi b, hi]; simp [ih]
    · rw [getElem?_setDflt_ne b hij]
      cases hti : t[iter]? with
      | none => rfl
      | some nd => simp [ih]

theorem isChainFrom_setDflt (t : DataTree) (j : Nat) (b : Bool) :
    ∀ (l : List Nat) (o : Option Nat), isChainFrom (setDflt t j b) o l = isChainFrom t o l := by
  intro l
  induction l with
  | nil => intro o; cases o <;> rfl
  | cons x l ih =>
    intro o
    cases o with
    | none => rfl
    | some i => rw [isChainFrom, isChainFrom, parentIdx_setDflt, ih]

/-! Lifting the single-write lemmas over `setTrueAll`. -/

theorem setTrueAll_cons (t : DataTree) (i : Nat) (l : List Nat) :
    setTrueAll t (i :: l) = setTrueAll (setDflt t i true) l := rfl

theorem length_setTrueAll : ∀ (l : List Nat) (t : DataTree),
    (setTrueAll t l).length = t.length := by
  intro l
  induction l with
  | nil => intro t; rfl
  | cons i l ih => intro t; rw [setTrueAll_cons, ih, length_setDflt]

theorem goDown_setTrueAll (l : List Nat) (t : DataTree) (iter fuel : Nat) :
    goDown (setTrueAll t l) iter fuel = goDown t iter fuel := by
  induction l generalizing t with
  | nil => rfl
  | cons i l ih => rw [setTrueAll_cons, ih, goDown_setDflt]

theorem upVisits_setTrueAll (node : Nat) (l : List Nat) (t : DataTree) (iter fuel : Nat) :
    upVisits node (setTrueAll t l) iter fuel = upVisits node t iter fuel := by
  induction l generalizing t with
  | nil => rfl
  | cons i l ih => rw [setTrueAll_cons, ih, upVisits_setDflt]

theorem dfltAt_setTrueAll_of_true {l : List Nat} {t : DataTree} {i : Nat}
    (h : dfltAt t i = true) : dfltAt (setTrueAll t l) i = true := by
  induction l generalizing t with
  | nil => exact h
  | cons j l ih =>
    rw [setTrueAll_cons]
    refine ih ?_
    by_cases hij : i = j
    · subst hij
      obtain ⟨nd, hnd, _⟩ := dfltAt_eq_true_iff.mp h
      exact dfltAt_setDflt_self hnd true
    · rw [dfltAt_setDflt_ne true hij]; exact h

theorem getElem?_none_setTrueAll {l : List Nat} {t : DataTree} {i : Nat}
    (h : t[i]? = none) : (setTrueAll t l)[i]? = none := by
  have hlen : t.length ≤ i := by
    by_contra hlt
    push_neg at hlt
    rw [List.getElem?_eq_getElem hlt] at h
    exact Option.noConfusion h
  exact List.getElem?_eq_none (by rw [length_setTrueAll]; exact hlen)

theorem setTrueAll_sets : ∀ (l : List Nat) (t : DataTree) (i : Nat), i ∈ l →
    dfltAt (setTrueAll t l) i = true ∨ t[i]? = none := by
  intro l
  induction l with
  | nil => intro t i h; exact absurd h (List.not_mem_nil i)
  | cons j l ih =>
    intro t i h
    rw [setTrueAll_cons]
    rcases List.mem_cons.mp h with hij | hmem
    · subst hij
      cases hi : t[i]? with
      | none => exact Or.inr rfl
      | some nd =>
        exact Or.inl (dfltAt_setTrueAll_of_true (dfltAt_setDflt_self hi true))
    · rcases ih (setDflt t j true) i hmem with h1 | h1
      · exact Or.inl h1
      · by_cases hij : i = j
        · subst hij
          cases hi : t[i]? with
          | none => exact Or.inr rfl
          | some nd => rw [getElem?_setDflt_self hi true] at h1; exact Option.noConfusion h1
        · rw [getElem?_setDflt_ne true hij] at h1; exact Or.inr h1

theorem setTrueAll_noop : ∀ (l : List Nat) (t : DataTree),
    (∀ i ∈ l, dfltAt t i = true ∨ t[i]? = none) → setTrueAll t l = t := by
  intro l
  induction l with
  | nil => intro t _; rfl
  | cons j l ih =>
    intro t h
    rw [setTrueAll_cons]
    have hj : setDflt t j true = t := by
      rcases h j (List.mem_cons_self j l) with h1 | h1
      · exact setDflt_of_true h1
      · exact setDflt_of_none h1 true
    rw [hj]
    exact ih t (fun i hi => h i (List.mem_cons_of_mem j hi))

/-- The upward walk is exactly the flag-write fold over its visit list. -/
theorem goUp_eq_setTrueAll (node : Nat) :
    ∀ (fuel : Nat) (t : DataTree) (iter : Nat),
    goUp node t iter fuel = setTrueAll t (upVisits node t iter fuel) := by
  intro fuel
  induction fuel with
  | zero => intro t iter; rfl
  | succ n ih =>
    intro t iter
    rw [goUp, upVisits]
    cases hti : t[iter]? with
    | none => rfl
    | some nd =>
      by_cases hb : isBoundarySchema nd.schema
      · simp [hb]; rfl
      · simp only [hb, if_false, Bool.false_eq_true]
        by_cases hin : iter = node
        · simp only [hin, if_true]
          rfl
        · simp only [hin, if_false]
          cases nd.parent with
          | some p =>
            show goUp node (setDflt t iter true) p n
                = setTrueAll t (iter :: upVisits node t p n)
            rw [ih, upVisits_setDflt, setTrueAll_cons]
          | none =>
            show setDflt t iter true = setTrueAll t [iter]
            rfl

/-! Lemmas about the clearing walk. -/

theorem clearUp_zero (t : DataTree) (o : Option Nat) : clearUp t o 0 = t := by
  cases o <;> rfl

theorem clearUp_none (t : DataTree) (fuel : Nat) : clearUp t none fuel = t := by
  cases fuel <;> rfl

theorem dfltAt_clearUp_of_false : ∀ (fuel : Nat) (t : DataTree) (o : Option Nat) (i : Nat),
    dfltAt t i = false → dfltAt (clearUp t o fuel) i = false := by
  intro fuel
  induction fuel with
  | zero => intro t o i h; rw [clearUp_zero]; exact h
  | succ n ih =>
    intro t o i h
    cases o with
    | none => rw [clearUp_none]; exact h
    | some j =>
      rw [clearUp]
      cases htj : t[j]? with
      | none => exact h
      | some nd =>
        by_cases hd : nd.dflt = true
        · simp only [hd, if_true]
          refine ih _ _ i ?_
          by_cases hij : i = j
          · subst hij; exact dfltAt_setDflt_self htj false
          · rw [dfltAt_setDflt_ne false hij]; exact h
        · simp [hd, h]

theorem dfltAt_clearUp_true_imp {fuel : Nat} {t : DataTree} {o : Option Nat} {i : Nat}
    (h : dfltAt (clearUp t o fuel) i = true) : dfltAt t i = true := by
  by_contra hf
  rw [Bool.not_eq_true] at hf
  rw [dfltAt_clearUp_of_false fuel t o i hf] at h
  exact Bool.noConfusion h

theorem parentIdx_clearUp : ∀ (fuel : Nat) (t : DataTree) (o : Option Nat) (j : Nat),
    parentIdx (clearUp t o fuel) j = parentIdx t j := by
  intro fuel
  induction fuel with
  | zero => intro t o j; rw [clearUp_zero]
  | succ n ih =>
    intro t o j
    cases o with
    | none => rw [clearUp_none]
    | some i =>
      rw [clearUp]
      cases hti : t[i]? with
      | none => rfl
      | some nd =>
        by_cases hd : nd.dflt = true
        · simp only [hd, if_true]
          rw [ih, parentIdx_setDflt]
        · simp [hd]

theorem length_clearUp : ∀ (fuel : Nat) (t : DataTree) (o : Option Nat),
    (clearUp t o fuel).length = t.length := by
  intro fuel
  induction fuel with
  | zero => intro t o; rw [clearUp_zero]
  | succ n ih =>
    intro t o
    cases o with
    | none => rw [clearUp_none]
    | some i =>
      rw [clearUp]
      cases hti : t[i]? with
      | none => rfl
      | some nd =>
        by_cases hd : nd.dflt = true
        · simp only [hd, if_true]
          rw [ih, length_setDflt]
        · simp [hd]

/-- A second clearing run from the same start is a no-op: the first run left
its start node non-default, and the loop condition reads exactly that flag. -/
theorem clearUp_clearUp (t : DataTree) (o : Option Nat) (f1 f2 : Nat) (h1 : 1 ≤ f1) :
    clearUp (clearUp t o f1) o f2 = clearUp t o f1 := by
  obtain ⟨f0, rfl⟩ : ∃ f0, f1 = f0 + 1 := ⟨f1 - 1, by omega⟩
  cases o with
  | none => simp [clearUp_none]
  | some j =>
    cases htj : t[j]? with
    | none =>
      have e1 : clearUp t (some j) (f0 + 1) = t := by rw [clearUp, htj]
      rw [e1]
      cases f2 with
      | zero => rw [clearUp_zero]
      | succ m => rw [clearUp, htj]
    | some nd =>
      by_cases hd : nd.dflt = true
      · have e1 : clearUp t (some j) (f0 + 1)
            = clearUp (setDflt t j false) nd.parent f0 := by
          rw [clearUp, htj]
          simp [hd]
        rw [e1]
        have hjf : dfltAt (clearUp (setDflt t j false) nd.parent f0) j = false :=
          dfltAt_clearUp_of_false f0 _ nd.parent j (dfltAt_setDflt_self htj false)
        cases f2 with
        | zero => rw [clearUp_zero]
        | succ m =>
          rw [clearUp]
          have hlt : j < (clearUp (setDflt t j false) nd.parent f0).length := by
            rw [length_clearUp, length_setDflt]
            exact (List.getElem?_eq_some.mp htj).1
          rw [List.getElem?_eq_getElem hlt]
          have hfl : (clearUp (setDflt t j false) nd.parent f0)[j].dflt = false := by
            have h2 := hjf
            rw [dfltAt, List.getElem?_eq_getElem hlt] at h2
            exact h2
          simp [hfl]
      · have e1 : clearUp t (some j) (f0 + 1) = t := by
          rw [clearUp, htj]
          simp [hd]
        rw [e1]
        cases f2 with
        | zero => rw [clearUp_zero]
        | succ m =>
          rw [clearUp, htj]
          simp [hd]

/-! C6 core: propagation is idempotent. -/

theorem propagate_true_eq (t : DataTree) (node : Nat) :
    propagate t node true
      = setTrueAll t (upVisits node t (goDown t node t.length) t.length) := by
  rw [propagate]
  simp only [if_true]
  exact goUp_eq_setTrueAll node t.length t (goDown t node t.length)

theorem propagate_idem (t : DataTree) (node : Nat) (d : Bool) :
    propagate (propagate t node d) node d = propagate t node d := by
  cases d with
  | true =>
    rw [propagate_true_eq t node]
    rw [propagate_true_eq (setTrueAll t (upVisits node t (goDown t node t.length) t.length)) node]
    rw [length_setTrueAll, goDown_setTrueAll, upVisits_setTrueAll]
    refine setTrueAll_noop _ _ ?_
    intro i hi
    rcases setTrueAll_sets _ t i hi with h | h
    · exact Or.inl h
    · exact Or.inr (getElem?_none_setTrueAll h)
  | false =>
    cases hn : t[node]? with
    | none => simp [propagate, hn]
    | some nd =>
      have h1 : propagate t node false = clearUp t nd.parent (t.length + 1) := by
        simp [propagate, hn]
      rw [h1]
      have hlt : node < (clearUp t nd.parent (t.length + 1)).length := by
        rw [length_clearUp]
        exact (List.getElem?_eq_some.mp hn).1
      have hsome : (clearUp t nd.parent (t.length + 1))[node]?
          = some (clearUp t nd.parent (t.length + 1))[node] :=
        List.getElem?_eq_getElem hlt
      have hpar : (clearUp t nd.parent (t.length + 1))[node].parent = nd.parent := by
        have := parentIdx_clearUp (t.length + 1) t nd.parent node
        rw [parentIdx, hsome, parentIdx, hn] at this
        exact this
      rw [propagate, if_neg (by simp), hsome]
      show clearUp (clearUp t nd.parent (t.length + 1))
            (clearUp t nd.parent (t.length + 1))[node].parent
            ((clearUp t nd.parent (t.length + 1)).length + 1)
          = clearUp t nd.parent (t.length + 1)
      rw [hpar, length_clearUp]
      exact clearUp_clearUp t nd.parent (t.length + 1) (t.length + 1) (by omega)

/-! C4 core: the upward setting walk never marks a boundary node. -/

theorem dfltAt_goUp_boundary (node : Nat) :
    ∀ (fuel : Nat) (t : DataTree) (iter i : Nat) (s : LysNode),
    schemaAt t i = some s → isBoundarySchema s = true →
    dfltAt (goUp node t iter fuel) i = true → dfltAt t i = true := by
  intro fuel
  induction fuel with
  | zero => intro t iter i s _ _ h; exact h
  | succ n ih =>
    intro t iter i s hs hb h
    rw [goUp] at h
    cases hti : t[iter]? with
    | none => rw [hti] at h; exact h
    | some nd =>
      rw [hti] at h
      by_cases hbnd : isBoundarySchema nd.schema = true
      · simp only [hbnd, if_true] at h
        exact h
      · have hne : i ≠ iter := by
          intro he
          apply hbnd
          rw [he, schemaAt, hti] at hs
          simp only [Option.map_some', Option.some_inj] at hs
          rw [hs]
          exact hb
        simp only [hbnd, if_false, Bool.false_eq_true] at h
        by_cases hin : iter = node
        · rw [if_pos hin] at h
          rw [dfltAt_setDflt_ne true hne] at h
          exact h
        · rw [if_neg hin] at h
          cases hp : nd.parent with
          | some p =>
            rw [hp] at h
            have h2 := ih (setDflt t iter true) p i s
              (by rw [schemaAt_setDflt]; exact hs) hb h
            rw [dfltAt_setDflt_ne true hne] at h2
            exact h2
          | none =>
            rw [hp] at h
            rw [dfltAt_setDflt_ne true hne] at h
            exact h

/-! C5 core: the clearing walk clears exactly the initial all-default
segment of the ancestor chain. -/

theorem takeWhile_congr {l : List Nat} {p q : Nat → Bool} (h : ∀ x ∈ l, p x = q x) :
    l.takeWhile p = l.takeWhile q := by
  induction l with
  | nil => rfl
  | cons a l ih =>
    have ha := h a (List.mem_cons_self a l)
    have ih1 := ih (fun x hx => h x (List.mem_cons_of_mem a hx))
    rw [List.takeWhile_cons, List.takeWhile_cons, ha, ih1]

theorem clearUp_chain : ∀ (l : List Nat) (t : DataTree) (o : Option Nat) (fuel : Nat),
    isChainFrom t o l = true → l.Nodup →
    (l.takeWhile (fun i => dfltAt t i)).length < fuel →
    (∀ i ∈ l.takeWhile (fun i => dfltAt t i), dfltAt (clearUp t o fuel) i = false) ∧
    (∀ j, j ∉ l.takeWhile (fun i => dfltAt t i) →
      dfltAt (clearUp t o fuel) j = dfltAt t j) := by
  intro l
  induction l with
  | nil =>
    intro t o fuel hc _ _
    have ho : o = none := by
      cases o with
      | none => rfl
      | some i => simp [isChainFrom] at hc
    subst ho
    rw [clearUp_none]
    exact ⟨fun i hi => absurd hi (by simp), fun j _ => rfl⟩
  | cons x l ih =>
    intro t o fuel hc hnd hfuel
    cases o with
    | none => simp [isChainFrom] at hc
    | some y =>
      rw [isChainFrom] at hc
      simp only [Bool.and_eq_true, decide_eq_true_eq] at hc
      obtain ⟨h1, hc1⟩ := hc
      rw [h1] at hc1
      rw [h1]
      cases hti : t[x]? with
      | none =>
        have hdx : dfltAt t x = false := by simp [dfltAt, hti]
        have hTW : (x :: l).takeWhile (fun i => dfltAt t i) = [] := by
          rw [List.takeWhile_cons]
          simp [hdx]
        have hCE : clearUp t (some x) fuel = t := by
          cases fuel with
          | zero => exact clearUp_zero t _
          | succ m => rw [clearUp, hti]
        refine ⟨?_, ?_⟩
        · intro i hi
          rw [hTW] at hi
          exact absurd hi (by simp)
        · intro j _
          rw [hCE]
      | some nd =>
        by_cases hdx : nd.dflt = true
        · have hdfx : dfltAt t x = true := by simp [dfltAt, hti, hdx]
          have hTW : (x :: l).takeWhile (fun i => dfltAt t i)
              = x :: l.takeWhile (fun i => dfltAt t i) := by
            rw [List.takeWhile_cons]
            simp [hdfx]
          rw [hTW] at hfuel
          obtain ⟨m, rfl⟩ : ∃ m, fuel = m + 1 := ⟨fuel - 1, by omega⟩
          have hxl : x ∉ l := (List.nodup_cons.mp hnd).1
          have hnd1 : l.Nodup := (List.nodup_cons.mp hnd).2
          have hstep : clearUp t (some x) (m + 1)
              = clearUp (setDflt t x false) nd.parent m := by
            rw [clearUp, hti]
            simp [hdx]
          have hchain1 : isChainFrom (setDflt t x false) nd.parent l = true := by
            rw [isChainFrom_setDflt]
            have hp : parentIdx t x = nd.parent := by simp [parentIdx, hti]
            rw [← hp]
            exact hc1
          have hTWcong : l.takeWhile (fun i => dfltAt (setDflt t x false) i)
              = l.takeWhile (fun i => dfltAt t i) :=
            takeWhile_congr (fun y hy =>
              dfltAt_setDflt_ne false (fun he => hxl (he ▸ hy)))
          have hfuel1 : (l.takeWhile (fun i => dfltAt (setDflt t x false) i)).length < m := by
            rw [hTWcong]
            simp only [List.length_cons] at hfuel
            omega
          obtain ⟨ha, hb⟩ := ih (setDflt t x false) nd.parent m hchain1 hnd1 hfuel1
          refine ⟨?_, ?_⟩
          · intro i hi
            rw [hTW] at hi
            rw [hstep]
            rcases List.mem_cons.mp hi with rfl | hi1
            · have hxnot : i ∉ l.takeWhile (fun y => dfltAt (setDflt t i false) y) := by
                rw [hTWcong]
                intro hmem
                exact hxl ((List.takeWhile_sublist _).subset hmem)
              rw [hb i hxnot]
              exact dfltAt_setDflt_self hti false
            · exact ha i (by rw [hTWcong]; exact hi1)
          · intro j hj
            rw [hTW] at hj
            rw [hstep]
            have hjx : j ≠ x := fun he => hj (he ▸ List.mem_cons_self x _)
            have hjnot : j ∉ l.takeWhile (fun y => dfltAt (setDflt t x false) y) := by
              rw [hTWcong]
              intro hmem
              exact hj (List.mem_cons_of_mem x hmem)
            rw [hb j hjnot, dfltAt_setDflt_ne false hjx]
        · rw [Bool.not_eq_true] at hdx
          have hdfx : dfltAt t x = false := by simp [dfltAt, hti, hdx]
          have hTW : (x :: l).takeWhile (fun i => dfltAt t i) = [] := by
            rw [List.takeWhile_cons]
            simp [hdfx]
          have hCE : clearUp t (some x) fuel = t := by
            cases fuel with
            | zero => exact clearUp_zero t _
            | succ m =>
              rw [clearUp, hti]
              simp [hdx]
          refine ⟨?_, ?_⟩
          · intro i hi
            rw [hTW] at hi
            exact absurd hi (by simp)
          · intro j _
            rw [hCE]

/-! Pipeline lemmas for op_generic. -/

theorem buildStep_eq (ins : InsertOracle) (anchor : Nat) (sxml : Bool) (t : DataTree)
    (r : SrValT) :
    buildStep ins anchor sxml t r
      = (if (ins t anchor r.xpath (op_get_srval r) sxml).err then none
         else
           match (ins t anchor r.xpath (op_get_srval r) sxml).node with
           | none => some (ins t anchor r.xpath (op_get_srval r) sxml).tree
           | some n =>
             some (propagate (ins t anchor r.xpath (op_get_srval r) sxml).tree n r.dflt)) :=
  rfl

theorem flattenGo_ok : ∀ (nodes : List InNode) (i : Nat) (st : FlatState),
    (∀ nd ∈ nodes, nd.srvalOk = true) →
    ∃ st1, flattenGo nodes i st = .ok st1 := by
  intro nodes
  induction nodes with
  | nil => intro i st _; exact ⟨st, rfl⟩
  | cons nd rest ih =>
    intro i st h
    rw [flattenGo]
    by_cases hd : nd.dflt = true
    · simp only [hd, if_true]
      exact ih (i + 1) _ (fun x hx => h x (List.mem_cons_of_mem nd hx))
    · have hok : nd.srvalOk = true := h nd (List.mem_cons_self nd rest)
      simp only [hd, hok, if_true, if_false, Bool.false_eq_true]
      exact ih (i + 1) _ (fun x hx => h x (List.mem_cons_of_mem nd hx))

theorem buildRecords_some (ins : InsertOracle) (anchor : Nat) (sxml : Bool)
    (hins : ∀ t a x v s, (ins t a x v s).err = false) :
    ∀ (rs : List SrValT) (t : DataTree),
    ∃ t1, buildRecords ins anchor sxml t rs = some t1 := by
  intro rs
  induction rs with
  | nil => intro t; exact ⟨t, rfl⟩
  | cons r rest ih =>
    intro t
    rw [buildRecords, buildStep_eq]
    rw [hins t anchor r.xpath (op_get_srval r) sxml]
    simp only [if_false, Bool.false_eq_true]
    cases hnode : (ins t anchor r.xpath (op_get_srval r) sxml).node with
    | none => exact ih _
    | some n => exact ih _

theorem build_none_of_validate_false (ins : InsertOracle) (validate : DataTree → Bool)
    (t : DataTree) (anchor : Nat) (output : List SrValT)
    (hins : ∀ t1 a x v s, (ins t1 a x v s).err = false)
    (hval : ∀ t1, validate t1 = false) :
    build_rpc_act_from_output ins validate t anchor output = none := by
  unfold build_rpc_act_from_output
  obtain ⟨t1, ht1⟩ := buildRecords_some ins anchor (sxmlArg output) hins output t
  rw [ht1]
  simp [hval t1]

theorem flattenStage_run (env : OpEnv) (st : OpSt) (j : Nat)
    (h2 : env.allocOk = true) (h3 : ∀ nd ∈ env.inputNodes, nd.srvalOk = true) :
    ∃ st1, flattenStage env st j = afterSend env st1 j
      ∧ st1.caller = st.caller ∧ st1.act = st.act ∧ st1.actAlive = st.actAlive
      ∧ st1.replyDupAlive = st.replyDupAlive := by
  simp only [flattenStage]
  have hcond : ¬ (env.inputNodes.length ≠ 0 ∧ env.allocOk = false) := by
    rintro ⟨_, hf⟩
    rw [h2] at hf
    exact Bool.noConfusion hf
  rw [if_neg hcond]
  obtain ⟨fs, hfs⟩ := flattenGo_ok env.inputNodes 0 _ h3
  rw [hfs]
  exact ⟨_, rfl, rfl, rfl, rfl, rfl⟩

theorem afterSend_notsup (env : OpEnv) (st : OpSt) (j : Nat)
    (h : env.backendRc = .SR_ERR_UNKNOWN_MODEL ∨ env.backendRc = .SR_ERR_NOT_FOUND) :
    afterSend env st j = ⟨.errOpNotSupported, st⟩ := by
  simp only [afterSend]
  rw [if_pos h]

theorem afterSend_valfail (env : OpEnv) (st : OpSt) (j : Nat)
    (h5 : env.backendRc = .SR_ERR_OK) (h6 : env.backendOutput ≠ [])
    (h7 : ∀ t a x v s, (env.ins t a x v s).err = false)
    (h8 : ∀ t, env.validateOk t = false)
    (hA : st.act = none → st.actAlive = false)
    (hR : st.replyDupAlive = false) :
    (afterSend env st j).reply = .errSr
    ∧ (afterSend env st j).st.actAlive = false
    ∧ (afterSend env st j).st.replyDupAlive = false := by
  cases hact : st.act with
  | none =>
    have hb : build_rpc_act_from_output env.ins env.validateOk
        (lyd_dup_shallow st.caller 0) 0 env.backendOutput = none :=
      build_none_of_validate_false _ _ _ _ _ h7 h8
    simp [afterSend, h5, hact, hb, h6]
    exact hA hact
  | some actT =>
    have hb : build_rpc_act_from_output env.ins env.validateOk
        (discardChildren actT j) j env.backendOutput = none :=
      build_none_of_validate_false _ _ _ _ _ h7 h8
    simp [afterSend, h5, hact, hb, h6]
    exact hR

theorem afterSend_caller (env : OpEnv) (st : OpSt) (j : Nat) :
    (afterSend env st j).st.caller = st.caller := by
  simp only [afterSend]
  repeat' split
  all_goals rfl

theorem flattenStage_caller (env : OpEnv) (st : OpSt) (j : Nat) :
    (flattenStage env st j).st.caller = st.caller := by
  simp only [flattenStage]
  split
  · rfl
  · split
    · rfl
    · exact afterSend_caller env _ j

theorem op_generic_action_eq (env : OpEnv) (j : Nat)
    (hshape : rootNodetype env.callerTree ≠ LYS_RPC)
    (hdup : env.dupOk = true)
    (hfind : findActionIdx env.callerTree = some j) :
    op_generic env = flattenStage env
      { caller := env.callerTree, act := some env.callerTree, actAlive := true
        setAlive := false, inputAlive := false, strsAlive := false
        xpathsAlive := [], outputAlive := false, replyDupAlive := false } j := by
  simp only [op_generic, hfind]
  rw [if_pos hshape, if_neg (by rw [hdup]; simp)]

theorem op_generic_op_eq (env : OpEnv)
    (hshape : ¬rootNodetype env.callerTree ≠ LYS_RPC) :
    op_generic env = flattenStage env
      { caller := env.callerTree, act := none, actAlive := false
        setAlive := false, inputAlive := false, strsAlive := false
        xpathsAlive := [], outputAlive := false, replyDupAlive := false } 0 := by
  simp only [op_generic]
  rw [if_neg hshape]

/-! Claim theorems. -/

/-- C1: the claim states that the flat request handed to the backend omits
every default node, contains every non-default node exactly once with its
path, and that the record count equals the number of filled records with no
gaps.  The code (lines 138-151) decrements `in_count` when skipping a
default node but keeps filling at the original loop index `i`, so on the
input `[x (default), y (non-default)]` the array is `[zeroed, y]` with
`in_count = 1`: the backend (lines 159/161) receives exactly one all-zero
record and never the non-default node `y`.  Evaluation of the code at this
failing input. -/
theorem c1_flatten_gap :
    flattenInput exInNodes
      = .ok ⟨1, [zeroSrVal, ⟨some "/m:op/y", .SR_STRING_T, some "5", false⟩], [1], 0⟩
    ∧ sentRecords exInNodes = [zeroSrVal] := ⟨rfl, rfl⟩

/-- C2: the claim states that whether record `i` is inserted as an
anydata/anyxml payload depends only on record `i`'s own type.  Line 41 reads
`output->type`, i.e. `output[0].type`, for every loop index: on a reply
whose first record is anyxml and whose second is a plain string, the flag
used for record 1 (`sxmlArg`, passed at every iteration) is true although
record 1's own-type decision (`sxmlArgOwn`) is false.  Evaluation of the
code at this failing input. -/
theorem c2_anydata_flag_from_first_record :
    sxmlArg exOutAny = true ∧ (exOutAny[1]?).map sxmlArgOwn = some false := ⟨rfl, rfl⟩

/-- C3 (counterexample): on a validation failure the call does not produce
the operation-failed outcome of the `error:` label; it jumps to `srerror:`
(line 199) and reports through `op_build_err_sr`, the same outcome as a
backend failure. -/
theorem c3_validation_failure_counterexample :
    (op_generic envValFail).reply = Reply.errSr
    ∧ (op_generic envValFail).reply ≠ Reply.errOpFailed := by
  refine ⟨rfl, ?_⟩
  intro h
  exact Reply.noConfusion ((rfl : (op_generic envValFail).reply = Reply.errSr) ▸ h)

/-- C3 (amended): if the assembled reply tree fails whole-tree validation,
the call never returns that tree: the partially built reply tree (the
operation-case duplicate or the duplicated action tree) is freed, and the
failure is surfaced through the sysrepo error-reporting path
(`op_build_err_sr`, the backend-error outcome), not as the operation-failed
outcome of the `error:` label. -/
theorem c3_validation_discards_tree (env : OpEnv)
    (h1 : rootNodetype env.callerTree = LYS_RPC
        ∨ (env.dupOk = true ∧ (findActionIdx env.callerTree).isSome = true))
    (h2 : env.allocOk = true)
    (h3 : ∀ nd ∈ env.inputNodes, nd.srvalOk = true)
    (h5 : env.backendRc = .SR_ERR_OK)
    (h6 : env.backendOutput ≠ [])
    (h7 : ∀ t a x v s, (env.ins t a x v s).err = false)
    (h8 : ∀ t, env.validateOk t = false) :
    (op_generic env).reply = .errSr
    ∧ (op_generic env).st.actAlive = false
    ∧ (op_generic env).st.replyDupAlive = false := by
  by_cases hshape : rootNodetype env.callerTree ≠ LYS_RPC
  · rcases h1 with h1 | ⟨hdup, hfind⟩
    · exact absurd h1 hshape
    · obtain ⟨j, hj⟩ := Option.isSome_iff_exists.mp hfind
      rw [op_generic_action_eq env j hshape hdup hj]
      obtain ⟨st1, heq, _, hact, _, hrd⟩ := flattenStage_run env _ j h2 h3
      rw [heq]
      refine afterSend_valfail env st1 j h5 h6 h7 h8 ?_ ?_
      · intro hnone
        rw [hnone] at hact
        exact Option.noConfusion hact
      · exact hrd
  · rw [op_generic_op_eq env hshape]
    obtain ⟨st1, heq, _, _, hal, hrd⟩ := flattenStage_run env _ 0 h2 h3
    rw [heq]
    refine afterSend_valfail env st1 0 h5 h6 h7 h8 ?_ ?_
    · intro _
      exact hal
    · exact hrd

/-- C3 witness: the amended theorem applied to a concrete operation whose
backend reply fails validation. -/
theorem c3_validation_discards_tree_witness :
    (op_generic envValFail).reply = Reply.errSr
    ∧ (op_generic envValFail).st.actAlive = false
    ∧ (op_generic envValFail).st.replyDupAlive = false :=
  c3_validation_discards_tree envValFail (Or.inl rfl) rfl
    (fun nd h => absurd h (List.not_mem_nil nd)) rfl (by decide)
    (fun _ _ _ _ _ => rfl) (fun _ => rfl)

/-- C4: default-flag propagation never sets the `dflt` flag on a
presence-bearing container or on a list with keys: for any tree state, any
propagated node and either flag direction, a boundary node is flagged after
propagation only if it was already flagged before.  This holds at every step
of any insertion sequence, since `propagate` is the only flag-setter of the
assembly loop. -/
theorem c4_boundary_never_set_default (t : DataTree) (n : Nat) (d : Bool) (i : Nat)
    (s : LysNode) (hs : schemaAt t i = some s) (hb : isBoundarySchema s = true)
    (hd : dfltAt (propagate t n d) i = true) : dfltAt t i = true := by
  cases d with
  | true =>
    rw [propagate, if_pos rfl] at hd
    exact dfltAt_goUp_boundary n t.length t _ i s hs hb hd
  | false =>
    rw [propagate, if_neg (by simp)] at hd
    cases hn : t[n]? with
    | none => rw [hn] at hd; exact hd
    | some nd =>
      rw [hn] at hd
      exact dfltAt_clearUp_true_imp hd

/-- C4 witness: a presence container whose flag was already set keeps it. -/
theorem c4_boundary_never_set_default_witness : dfltAt presenceTree 0 = true :=
  c4_boundary_never_set_default presenceTree 0 true 0 ⟨LYS_CONTAINER, true, 0⟩
    (by decide) (by decide) (by decide)

/-- C5: inserting a non-default record walks upward from the inserted
node's parent, clearing the flag on exactly the initial all-default segment
of the ancestor chain; the first non-default ancestor and every other node
keep their flags unchanged.  `l` is the node's ancestor chain (parent
first), assumed acyclic as on any well-formed libyang tree. -/
theorem c5_clear_on_non_default (t : DataTree) (n : Nat) (l : List Nat)
    (hc : isChainFrom t (parentIdx t n) l = true) (hnd : l.Nodup)
    (hn : t[n]?.isSome = true) :
    (∀ i ∈ l.takeWhile (fun i => dfltAt t i), dfltAt (propagate t n false) i = false)
    ∧ (∀ j, j ∉ l.takeWhile (fun i => dfltAt t i) →
        dfltAt (propagate t n false) j = dfltAt t j) := by
  obtain ⟨nd, hnd1⟩ := Option.isSome_iff_exists.mp hn
  have hpar : parentIdx t n = nd.parent := by simp [parentIdx, hnd1]
  have hProp : propagate t n false = clearUp t nd.parent (t.length + 1) := by
    simp [propagate, hnd1]
  have hTWnd : (l.takeWhile (fun i => dfltAt t i)).Nodup :=
    List.Nodup.sublist (List.takeWhile_sublist _) hnd
  have hbound : ∀ i ∈ l.takeWhile (fun i => dfltAt t i), i < t.length := by
    intro i hi
    have hpi : dfltAt t i = true := by
      have h0 := List.mem_takeWhile_imp hi
      simpa using h0
    obtain ⟨ndi, hndi, _⟩ := dfltAt_eq_true_iff.mp hpi
    exact (List.getElem?_eq_some.mp hndi).1
  have hlen : (l.takeWhile (fun i => dfltAt t i)).length < t.length + 1 := by
    have hcard : (l.takeWhile (fun i => dfltAt t i)).length
        = (l.takeWhile (fun i => dfltAt t i)).toFinset.card :=
      (List.toFinset_card_of_nodup hTWnd).symm
    have hsub : (l.takeWhile (fun i => dfltAt t i)).toFinset ⊆ Finset.range t.length := by
      intro i hi
      exact Finset.mem_range.mpr (hbound i (List.mem_toFinset.mp hi))
    have hle := Finset.card_le_card hsub
    rw [Finset.card_range] at hle
    omega
  have hmain := clearUp_chain l t nd.parent (t.length + 1) (hpar ▸ hc) hnd hlen
  rw [hProp]
  exact hmain

/-- C5 witness: on two nested default containers above a non-default leaf,
inserting at the leaf clears both ancestors and leaves the leaf itself
unchanged. -/
theorem c5_clear_on_non_default_witness :
    dfltAt (propagate chainTree 2 false) 1 = false
    ∧ dfltAt (propagate chainTree 2 false) 0 = false
    ∧ dfltAt (propagate chainTree 2 false) 2 = dfltAt chainTree 2 := by
  have H := c5_clear_on_non_default chainTree 2 [1, 0] (by decide) (by decide) (by decide)
  exact ⟨H.1 1 (by decide), H.1 0 (by decide), H.2 2 (by decide)⟩

/-- C6: default-flag propagation is idempotent — applying the propagation
step twice with identical arguments yields the same tree (hence the same
flags) as applying it once, for either flag direction. -/
theorem c6_propagate_idempotent (t : DataTree) (node : Nat) (d : Bool) :
    propagate (propagate t node d) node d = propagate t node d :=
  propagate_idem t node d

/-- C7: the caller-owned operation/action tree is never mutated: on every
success and failure path of op_generic the caller's tree is unchanged at
return — the child-discarding, output insertion and flag propagation of the
assembly all target the duplicate (`act`, reached by the re-aimed `rpc`
pointer after the DFS) or the fresh reply duplicate, never the caller
slot. -/
theorem c7_input_tree_not_mutated (env : OpEnv) :
    (op_generic env).st.caller = env.callerTree := by
  simp only [op_generic]
  split
  · split
    · rfl
    · split
      · rfl
      · exact flattenStage_caller env _ _
  · exact flattenStage_caller env _ _

/-- C8: whenever the backend reports `SR_ERR_UNKNOWN_MODEL` or
`SR_ERR_NOT_FOUND` (lines 179-180), the call's outcome is exactly the
protocol-layer operation-not-supported error, a constructor carrying no
reply tree and no message detail. -/
theorem c8_not_supported_protocol_error (env : OpEnv)
    (h1 : rootNodetype env.callerTree = LYS_RPC
        ∨ (env.dupOk = true ∧ (findActionIdx env.callerTree).isSome = true))
    (h2 : env.allocOk = true)
    (h3 : ∀ nd ∈ env.inputNodes, nd.srvalOk = true)
    (h4 : env.backendRc = .SR_ERR_UNKNOWN_MODEL ∨ env.backendRc = .SR_ERR_NOT_FOUND) :
    (op_generic env).reply = .errOpNotSupported := by
  by_cases hshape : rootNodetype env.callerTree ≠ LYS_RPC
  · rcases h1 with h1 | ⟨hdup, hfind⟩
    · exact absurd h1 hshape
    · obtain ⟨j, hj⟩ := Option.isSome_iff_exists.mp hfind
      rw [op_generic_action_eq env j hshape hdup hj]
      obtain ⟨st1, heq, _, _, _, _⟩ := flattenStage_run env _ j h2 h3
      rw [heq, afterSend_notsup env st1 j h4]
  · rw [op_generic_op_eq env hshape]
    obtain ⟨st1, heq, _, _, _, _⟩ := flattenStage_run env _ 0 h2 h3
    rw [heq, afterSend_notsup env st1 0 h4]

/-- C8 witness: concrete unknown-model reply. -/
theorem c8_not_supported_protocol_error_witness :
    (op_generic envNotSup).reply = Reply.errOpNotSupported :=
  c8_not_supported_protocol_error envNotSup (Or.inl rfl) rfl
    (fun nd h => absurd h (List.not_mem_nil nd)) (Or.inl rfl)

/-- C9: the claim states that every failure path releases all resources
allocated so far, including the duplicated action tree.  On an action whose
backend send fails, op_generic returns through `srerror:` without freeing
`act` (nor does the `error:` label free it): the duplicated action tree is
still alive when the error reply is returned.  Evaluation of the code at
this failing input. -/
theorem c9_act_leak_on_backend_failure :
    (op_generic envActBackendFail).reply = Reply.errSr
    ∧ (op_generic envActBackendFail).st.actAlive = true := ⟨rfl, rfl⟩

/-- C10: when `lyd_new_path` reports no created or changed node (NULL) and
no error, the `if (node)` guard (line 47) skips default-flag propagation
entirely for that record: the loop continues on the insertion result
unchanged, so no flag anywhere is set or cleared on that record's
account. -/
theorem c10_no_change_update_skips_propagation (ins : InsertOracle) (anchor : Nat)
    (sxml : Bool) (t t1 : DataTree) (r : SrValT) (rest : List SrValT)
    (h : ins t anchor r.xpath (op_get_srval r) sxml = ⟨t1, none, false⟩) :
    buildRecords ins anchor sxml t (r :: rest) = buildRecords ins anchor sxml t1 rest := by
  rw [buildRecords, buildStep_eq, h]
  simp

/-- C10 witness: the no-change oracle on one record. -/
theorem c10_no_change_update_skips_propagation_witness :
    buildRecords insNoop 0 false [] [exOutRec]
      = buildRecords insNoop 0 false ([] : DataTree) [] :=
  c10_no_change_update_skips_propagation insNoop 0 false [] [] exOutRec [] rfl

end NP2
